import Mathlib

/-!
Shallow embedding of `src/rpf.py` (traxiv): generation and verification of
links to EMBO Press review process files (RPF).

Modelling conventions:
* Python exceptions are modelled with `Except PyError`; a function that can
  raise returns `Except PyError α`.
* Observable side effects (the rate-limiting sleep, the POST to the proxy,
  the call to the external DOI resolver) are recorded in an explicit trace
  `List Effect` returned alongside the result.
* The external collaborators (the DOI resolver `resolve` from `.utils`, and
  the HTTP proxy) are modelled by a `World` record of total functions.
* Python `re` is embedded for the two concrete patterns the code uses, with
  Python semantics: an unescaped `.` matches any character except newline,
  `$` also matches just before a single trailing newline, quantifiers are
  greedy, and `re.search` returns the leftmost match.  `\d` is modelled as
  an ASCII digit (all inputs of interest are ASCII).
-/

/-- Python exception kinds raised by the code under consideration.
* `typeError`: raised by `super.__init__(*args, **kwargs)` in
  `RPFLinkAbstract.__init__` — `super` is the builtin type itself (not
  `super()`), so its unbound slot wrapper `__init__` is called without a
  `self` argument.
* `keyError`: raised by `proxy_response_data['solution']['status']` /
  `['headers']` when the decoded JSON body lacks the field.
* `attributeError`: raised by `re.search(...).group(0)` when `re.search`
  returns `None`. -/
inductive PyError where
  | typeError
  | keyError
  | attributeError
  deriving DecidableEq

/-- Observable side effects of one resolution call. -/
inductive Effect where
  | delay
  | proxyPost (url : String)
  | resolveDoi (doi : String)
  deriving DecidableEq

/-- Python whitespace stripped by `str.strip()` (ASCII part). -/
def isPySpace (c : Char) : Bool :=
  c = ' ' || c = '\t' || c = '\n' || c = '\r' || c = '\x0b' || c = '\x0c'

/-- `str.strip()`: drop leading and trailing whitespace. -/
def pyStrip (s : String) : String :=
  String.mk (((s.data.dropWhile isPySpace).reverse.dropWhile isPySpace).reverse)

/-- `str.lower()` (ASCII behaviour). -/
def pyLower (s : String) : String :=
  String.mk (s.data.map Char.toLower)

/-- Greedy run of characters satisfying `p` (the `X+` / `X{m,n}` regex step). -/
def takeRun (p : Char → Bool) : List Char → List Char
  | [] => []
  | c :: cs => if p c then c :: takeRun p cs else []

/-- What remains after the greedy run of characters satisfying `p`. -/
def dropRun (p : Char → Bool) : List Char → List Char
  | [] => []
  | c :: cs => if p c then dropRun p cs else c :: cs

/-- `a in b` on Python strings: `needle` occurs as a contiguous substring. -/
def hasPrefixL : List Char → List Char → Bool
  | [], _ => true
  | _ :: _, [] => false
  | a :: as, b :: bs => if a = b then hasPrefixL as bs else false

def containsSub (needle : List Char) : List Char → Bool
  | [] => hasPrefixL needle []
  | c :: rest => hasPrefixL needle (c :: rest) || containsSub needle rest

/-- Python `dict.get(k, dflt)` on a string-valued dictionary. -/
def dictGet (d : List (String × String)) (k dflt : String) : String :=
  match d with
  | [] => dflt
  | (k2, v) :: rest => if k2 = k then v else dictGet rest k dflt

/-- The `solution` object inside the proxy's decoded JSON body.  `none`
fields model JSON objects lacking the corresponding key (Python raises
`KeyError` on `['status']` / `['headers']` in that case). -/
structure SolutionVal where
  status : Option Int
  headers : Option (List (String × String))

/-- The proxy's decoded JSON body; `solution = none` models a body without
a `solution` key (Python raises `KeyError` on `['solution']`). -/
structure ProxyBody where
  solution : Option SolutionVal

/-- The proxy's HTTP response as seen by `requests`: its own status code
and its body; `json = none` models a body on which `.json()` raises
`JSONDecodeError`. -/
structure ProxyResponse where
  status_code : Nat
  json : Option ProxyBody

/-- `RPFLinkAbstract._test(link, invalid='')`, as a function of the
`delay_requests` field, the candidate link, and the proxy's response to the
POST.  Returns the Python result (or a raised exception) together with the
trace of effects (sleep, proxy POST). -/
def RPFLink_test (delay_requests : Bool) (link : String) (resp : ProxyResponse)
    (invalid : String := "") : Except PyError String × List Effect :=
  if link = "" then (Except.ok invalid, [])
  else
    let effs := (if delay_requests then [Effect.delay] else []) ++ [Effect.proxyPost link]
    if resp.status_code ≠ 200 then (Except.ok invalid, effs)
    else
      match resp.json with
      | none => (Except.ok invalid, effs)
      | some body =>
        match body.solution with
        | none => (Except.error PyError.keyError, effs)
        | some sol =>
          match sol.status with
          | none => (Except.error PyError.keyError, effs)
          | some response_status =>
            match sol.headers with
            | none => (Except.error PyError.keyError, effs)
            | some response_headers =>
              if response_status ≠ 200 then (Except.ok invalid, effs)
              else
                let response_content_type := dictGet response_headers "content-type" ""
                if containsSub "application/pdf".data response_content_type.data
                then (Except.ok link, effs) else (Except.ok invalid, effs)

/-- The character class `[-_;()/:a-zA-Z0-9]` of the EjErEmmMsb regex. -/
def inClass (c : Char) : Bool :=
  c = '-' || c = '_' || c = ';' || c = '(' || c = ')' || c = '/' || c = ':' ||
  c.isAlpha || c.isDigit

/-- Anchored match of the Python regex
`^10.\d{4,9}/([-_;()/:a-zA-Z0-9]+)\.([-_;()/:a-zA-Z0-9]+)$` against a whole
string, with Python semantics: the `.` after `10` is unescaped and matches
any character except newline; `$` matches at the end of the string or just
before a single trailing newline.  On success returns the two capture
groups and whether a trailing newline was left unmatched.  Greedy
quantifiers combined with the literal characters that follow them make the
match deterministic, so backtracking never changes the outcome. -/
def ejMatch (cs : List Char) : Option (List Char × List Char × Bool) :=
  match cs with
  | c1 :: c2 :: c3 :: rest =>
    if c1 = '1' ∧ c2 = '0' ∧ c3 ≠ '\n' then
      let digits := takeRun Char.isDigit rest
      let rest2 := dropRun Char.isDigit rest
      if 4 ≤ digits.length ∧ digits.length ≤ 9 then
        match rest2 with
        | c4 :: rest3 =>
          if c4 = '/' then
            let s1 := takeRun inClass rest3
            let rest4 := dropRun inClass rest3
            if s1 ≠ [] then
              match rest4 with
              | c5 :: rest5 =>
                if c5 = '.' then
                  let s2 := takeRun inClass rest5
                  let rest6 := dropRun inClass rest5
                  if s2 ≠ [] then
                    if rest6 = [] then some (s1, s2, false)
                    else if rest6 = ['\n'] then some (s1, s2, true)
                    else none
                  else none
                else none
              | [] => none
            else none
          else none
        | [] => none
      else none
    else none
  | _ => none

/-- `re.sub(r'^10.\d{4,9}/(...)\.(...)$', r'\1\2', doi)`: since the pattern
is anchored at `^` it can match at most once; on a match the matched span is
replaced by the concatenated capture groups (a trailing newline matched by
`$` is kept), otherwise the string is returned unchanged. -/
def ej_suffix_without_dot (doi : String) : String :=
  match ejMatch doi.data with
  | some (s1, s2, nl) => String.mk (s1 ++ s2 ++ (if nl then ['\n'] else []))
  | none => doi

/-- `RPFLinkEjErEmmMsb._generate_link(doi)`. -/
def RPFLinkEjErEmmMsb_generate_link (doi : String) : String :=
  "https://www.embopress.org/action/downloadSupplement?doi=" ++ doi ++
    "&file=" ++ ej_suffix_without_dot doi ++ ".reviewer_comments.pdf"

/-- Match of the Python regex `\d+/\d+/e\d+` at the start of `cs`, returning
the matched characters.  Greediness plus the literal `/` and `e` delimiters
make the match deterministic. -/
def lsaMatchAt (cs : List Char) : Option (List Char) :=
  let d1 := takeRun Char.isDigit cs
  let r1 := dropRun Char.isDigit cs
  if d1 = [] then none
  else
    match r1 with
    | c1 :: r2 =>
      if c1 = '/' then
        let d2 := takeRun Char.isDigit r2
        let r3 := dropRun Char.isDigit r2
        if d2 = [] then none
        else
          match r3 with
          | c2 :: c3 :: r4 =>
            if c2 = '/' ∧ c3 = 'e' then
              let d3 := takeRun Char.isDigit r4
              if d3 = [] then none
              else some (d1 ++ '/' :: (d2 ++ '/' :: 'e' :: d3))
            else none
          | _ => none
      else none
    | [] => none

/-- `re.search(r'\d+/\d+/e\d+', s)`: leftmost match, scanning start
positions left to right. -/
def lsaSearch : List Char → Option (List Char)
  | [] => none
  | c :: rest =>
    match lsaMatchAt (c :: rest) with
    | some m => some m
    | none => lsaSearch rest

/-- The external collaborators: the DOI resolver (`resolve` from `.utils`,
not part of this repository) and the HTTP proxy, modelled as total
functions from the request to the observed response. -/
structure World where
  resolve : String → String
  proxy : String → ProxyResponse

/-- `RPFLinkLSA._generate_link(doi)`: resolve the DOI, scan the resolved
URL for `\d+/\d+/e\d+`; `re.search` returns `None` on no match and the
subsequent `.group(0)` raises `AttributeError`. -/
def RPFLinkLSA_generate_link (doi : String) (w : World) :
    Except PyError String × List Effect :=
  let resolved := w.resolve doi
  match lsaSearch resolved.data with
  | some m =>
    (Except.ok ("https://www.life-science-alliance.org/content/lsa/" ++
      String.mk m ++ ".reviewer-comments.pdf"), [Effect.resolveDoi doi])
  | none => (Except.error PyError.attributeError, [Effect.resolveDoi doi])

/-- `RPFLinkAbstract.__init__`: its body executes
`super.__init__(*args, **kwargs)` where `super` is the builtin type (not
`super()`), so the unbound slot wrapper is called without a `self`
argument and Python raises `TypeError`; the following assignment
`self.delay_requests = True` is never reached. -/
def RPFLinkAbstract_init : Except PyError Unit :=
  Except.error PyError.typeError

/-- The two concrete strategy classes. -/
inductive Strategy where
  | ejErEmmMsb
  | lsa
  deriving DecidableEq

/-- `RPFLinkAbstract.__call__(doi)` on an instance of the given strategy
class whose `delay_requests` field is `true` (the value `__init__` would
set): generate the candidate link, then verify it. -/
def strategy_call (s : Strategy) (doi : String) (w : World) :
    Except PyError String × List Effect :=
  match s with
  | Strategy.ejErEmmMsb =>
    let link := RPFLinkEjErEmmMsb_generate_link doi
    RPFLink_test true link (w.proxy link)
  | Strategy.lsa =>
    match RPFLinkLSA_generate_link doi w with
    | (Except.error e, effs) => (Except.error e, effs)
    | (Except.ok link, effs) =>
      let r := RPFLink_test true link (w.proxy link)
      (r.1, effs ++ r.2)

/-- `generate_rpf_link(journal, doi)`: normalize the journal name, pick the
strategy class, construct it (the constructor raises `TypeError`, see
`RPFLinkAbstract_init`), and call it. -/
def generate_rpf_link (journal doi : String) (w : World) :
    Except PyError String × List Effect :=
  let j := pyLower (pyStrip journal)
  if j ∈ ["the embo journal", "embo reports", "embo molecular medicine",
          "molecular systems biology"] then
    match RPFLinkAbstract_init with
    | Except.error e => (Except.error e, [])
    | Except.ok _ => strategy_call Strategy.ejErEmmMsb doi w
  else if j = "life science alliance" then
    match RPFLinkAbstract_init with
    | Except.error e => (Except.error e, [])
    | Except.ok _ => strategy_call Strategy.lsa doi w
  else (Except.ok "", [])

/-- Spec-side (for claim C5): a DOI of the shape
`10.<4-9 digits>/<seg1>.<seg2>` exactly as the spec words it — a literal
`10.` prefix, with both segments nonempty and drawn from the character
class. -/
def specTwoSegPattern (doi : String) : Prop :=
  ∃ digits s1 s2 : List Char,
    doi.data = '1' :: '0' :: '.' :: (digits ++ '/' :: (s1 ++ '.' :: s2)) ∧
    (∀ c ∈ digits, c.isDigit) ∧ 4 ≤ digits.length ∧ digits.length ≤ 9 ∧
    s1 ≠ [] ∧ s2 ≠ [] ∧ (∀ c ∈ s1, inClass c) ∧ (∀ c ∈ s2, inClass c)

/-- The set of strings actually matched by the code's anchored regex
`^10.\d{4,9}/(...)\.(...)$` under Python semantics: the third character is
arbitrary except newline, and a single trailing newline may be left
unmatched by `$`. -/
def codeAnchoredMatch (cs : List Char) : Prop :=
  ∃ (c : Char) (digits s1 s2 tail : List Char),
    cs = '1' :: '0' :: c :: (digits ++ '/' :: (s1 ++ '.' :: (s2 ++ tail))) ∧
    c ≠ '\n' ∧
    (∀ d ∈ digits, d.isDigit) ∧ 4 ≤ digits.length ∧ digits.length ≤ 9 ∧
    s1 ≠ [] ∧ s2 ≠ [] ∧ (∀ x ∈ s1, inClass x) ∧ (∀ x ∈ s2, inClass x) ∧
    (tail = [] ∨ tail = ['\n'])

/-- A match of `\d+/\d+/e\d+` starts at the head of `cs`. -/
def viEShapeAt (cs : List Char) : Prop :=
  ∃ d1 d2 d3 rest : List Char,
    cs = d1 ++ '/' :: (d2 ++ '/' :: 'e' :: (d3 ++ rest)) ∧
    d1 ≠ [] ∧ d2 ≠ [] ∧ d3 ≠ [] ∧
    (∀ c ∈ d1, c.isDigit) ∧ (∀ c ∈ d2, c.isDigit) ∧ (∀ c ∈ d3, c.isDigit)

/-- A world with inert collaborators, used for concrete instances. -/
def wTrivial : World :=
  { resolve := fun _ => "", proxy := fun _ => { status_code := 200, json := none } }

theorem takeRun_all (p : Char → Bool) (l : List Char) :
    ∀ x ∈ takeRun p l, p x = true := by
  induction l with
  | nil => intro x hx; simp [takeRun] at hx
  | cons c cs ih =>
    intro x hx
    by_cases hc : p c = true
    · simp [takeRun, hc] at hx
      rcases hx with hx | hx
      · rwa [hx]
      · exact ih x hx
    · simp [takeRun, hc] at hx

theorem takeRun_append_dropRun (p : Char → Bool) (l : List Char) :
    takeRun p l ++ dropRun p l = l := by
  induction l with
  | nil => rfl
  | cons c cs ih =>
    by_cases hc : p c = true
    · simp [takeRun, dropRun, hc, ih]
    · simp [takeRun, dropRun, hc]

theorem dropRun_head_false (p : Char → Bool) (l : List Char) (c : Char)
    (t : List Char) (h : dropRun p l = c :: t) : p c = false := by
  induction l with
  | nil => simp [dropRun] at h
  | cons a as ih =>
    by_cases ha : p a = true
    · simp [dropRun, ha] at h
      exact ih h
    · simp [dropRun, ha] at h
      rw [← h.1]
      simp [ha]

theorem takeRun_append (p : Char → Bool) (l1 l2 : List Char)
    (h1 : ∀ x ∈ l1, p x = true)
    (h2 : ∀ c t, l2 = c :: t → p c = false) :
    takeRun p (l1 ++ l2) = l1 := by
  induction l1 with
  | nil =>
    simp only [List.nil_append]
    cases l2 with
    | nil => rfl
    | cons c t => simp [takeRun, h2 c t rfl]
  | cons a l ih =>
    have ha : p a = true := h1 a (by simp)
    simp only [List.cons_append, takeRun, ha, if_true]
    exact congrArg (List.cons a) (ih (fun x hx => h1 x (by simp [hx])))

theorem dropRun_append (p : Char → Bool) (l1 l2 : List Char)
    (h1 : ∀ x ∈ l1, p x = true)
    (h2 : ∀ c t, l2 = c :: t → p c = false) :
    dropRun p (l1 ++ l2) = l2 := by
  induction l1 with
  | nil =>
    simp only [List.nil_append]
    cases l2 with
    | nil => rfl
    | cons c t => simp [dropRun, h2 c t rfl]
  | cons a l ih =>
    have ha : p a = true := h1 a (by simp)
    simp only [List.cons_append, dropRun, ha, if_true]
    exact ih (fun x hx => h1 x (by simp [hx]))

/-- C10: with an empty candidate URL the verifier returns the empty string
at once — no delay and no proxy call appear in the effect trace. -/
theorem test_empty_link_returns_empty_no_effects (d : Bool) (resp : ProxyResponse) :
    RPFLink_test d "" resp = (Except.ok "", []) := rfl

/-- C2: for a non-empty candidate URL and a proxy response whose body
decodes to JSON carrying `solution.status` and `solution.headers`, the
verifier returns the candidate unchanged exactly when the proxy status is
200, the reported target status is 200, and the `content-type` header
(empty string when absent) contains `application/pdf`; otherwise it
returns the empty string. -/
theorem test_success_characterization (d : Bool) (link : String)
    (resp : ProxyResponse) (body : ProxyBody) (sol : SolutionVal) (st : Int)
    (hdrs : List (String × String))
    (hlink : link ≠ "") (hjson : resp.json = some body)
    (hsol : body.solution = some sol) (hst : sol.status = some st)
    (hhdrs : sol.headers = some hdrs) :
    (RPFLink_test d link resp).1 =
      if resp.status_code = 200 ∧ st = 200 ∧
          containsSub "application/pdf".data (dictGet hdrs "content-type" "").data = true
      then Except.ok link else Except.ok "" := by
  by_cases hs : resp.status_code = 200
  · by_cases hst2 : st = 200
    · by_cases hct : containsSub "application/pdf".data (dictGet hdrs "content-type" "").data = true
      · simp [RPFLink_test, hlink, hs, hjson, hsol, hst, hhdrs, hst2, hct]
      · simp [RPFLink_test, hlink, hs, hjson, hsol, hst, hhdrs, hst2, hct]
    · simp [RPFLink_test, hlink, hs, hjson, hsol, hst, hhdrs, hst2]
  · simp [RPFLink_test, hlink, hs, hjson, hsol, hst, hhdrs]

/-- A concrete successful proxy exchange: proxy status 200, target status
200, `content-type: application/pdf`. -/
def hdrsGood : List (String × String) := [("content-type", "application/pdf")]

def solGood : SolutionVal := { status := some 200, headers := some hdrsGood }

def bodyGood : ProxyBody := { solution := some solGood }

def respGood : ProxyResponse := { status_code := 200, json := some bodyGood }

/-- Witness for C2 at a concrete successful verification. -/
theorem test_success_characterization_witness :
    (RPFLink_test false "https://x.test/f.pdf" respGood).1 =
      Except.ok "https://x.test/f.pdf" := by
  have h := test_success_characterization false "https://x.test/f.pdf"
    respGood bodyGood solGood 200 hdrsGood (by decide) rfl rfl rfl rfl
  rw [h]
  rfl

/-- C3 counterexample: a proxy response with status 200 whose JSON body
lacks the `solution` field makes the verifier raise `KeyError` (the
`try`/`except` only catches `JSONDecodeError`), so it does not return the
empty-string sentinel and the exception propagates to the caller. -/
theorem test_missing_solution_raises :
    (RPFLink_test false "https://y.test/f.pdf"
      { status_code := 200, json := some { solution := none } }).1 =
        Except.error PyError.keyError ∧
    (RPFLink_test false "https://y.test/f.pdf"
      { status_code := 200, json := some { solution := none } }).1 ≠
        Except.ok "" := by
  constructor
  · rfl
  · intro h
    exact Except.noConfusion h

/-- C3 amended: a non-200 proxy status or an undecodable JSON body is
recovered locally to the empty string, but a decoded body missing
`solution`, `solution.status` or `solution.headers` raises `KeyError`,
which propagates to the caller of `_test`. -/
theorem test_transport_failure_taxonomy (d : Bool) (link : String)
    (resp : ProxyResponse) (hlink : link ≠ "") :
    (resp.status_code ≠ 200 → (RPFLink_test d link resp).1 = Except.ok "") ∧
    (resp.json = none → (RPFLink_test d link resp).1 = Except.ok "") ∧
    (∀ body, resp.status_code = 200 → resp.json = some body →
      body.solution = none →
      (RPFLink_test d link resp).1 = Except.error PyError.keyError) ∧
    (∀ body sol, resp.status_code = 200 → resp.json = some body →
      body.solution = some sol → sol.status = none →
      (RPFLink_test d link resp).1 = Except.error PyError.keyError) ∧
    (∀ body sol st, resp.status_code = 200 → resp.json = some body →
      body.solution = some sol → sol.status = some st → sol.headers = none →
      (RPFLink_test d link resp).1 = Except.error PyError.keyError) := by
  refine ⟨?_, ?_, ?_, ?_, ?_⟩
  · intro hs
    simp [RPFLink_test, hlink, hs]
  · intro hj
    by_cases hs : resp.status_code = 200
    · simp [RPFLink_test, hlink, hs, hj]
    · simp [RPFLink_test, hlink, hs]
  · intro body hs hj hsol
    simp [RPFLink_test, hlink, hs, hj, hsol]
  · intro body sol hs hj hsol hst
    simp [RPFLink_test, hlink, hs, hj, hsol, hst]
  · intro body sol st hs hj hsol hst hh
    simp [RPFLink_test, hlink, hs, hj, hsol, hst, hh]

/-- Witness for the amended C3 at a concrete non-200 proxy response. -/
theorem test_transport_failure_taxonomy_witness :
    (RPFLink_test false "https://z.test/f.pdf"
      { status_code := 404, json := none }).1 = Except.ok "" := by
  exact (test_transport_failure_taxonomy false "https://z.test/f.pdf"
    { status_code := 404, json := none } (by decide)).1 (by decide)

/-- C1: for every journal name whose normalized form is one of the five
recognized names, `generate_rpf_link` stops with `TypeError` during
strategy construction — before any link generation, delay, DOI resolution
or proxy call (the effect trace is empty), so no recognized-journal
resolution ever returns a URL or the empty string. -/
theorem generate_rpf_link_recognized_raises_typeError
    (journal doi : String) (w : World)
    (h : pyLower (pyStrip journal) ∈
      ["the embo journal", "embo reports", "embo molecular medicine",
       "molecular systems biology", "life science alliance"]) :
    generate_rpf_link journal doi w = (Except.error PyError.typeError, []) := by
  simp only [List.mem_cons, List.not_mem_nil, or_false] at h
  rcases h with h | h | h | h | h <;>
    simp [generate_rpf_link, h, RPFLinkAbstract_init]

/-- Witness for C1 at a recognized journal. -/
theorem generate_rpf_link_recognized_raises_typeError_witness :
    generate_rpf_link "EMBO reports" "10.15252/embr.201847097" wTrivial =
      (Except.error PyError.typeError, []) := by
  exact generate_rpf_link_recognized_raises_typeError
    "EMBO reports" "10.15252/embr.201847097" wTrivial (by decide)

/-- C6: any journal name whose normalized form is outside the five
recognized names makes `generate_rpf_link` return the empty string with an
empty effect trace — no strategy constructed, no delay, no network. -/
theorem generate_rpf_link_unrecognized_empty (journal doi : String) (w : World)
    (h : pyLower (pyStrip journal) ∉
      ["the embo journal", "embo reports", "embo molecular medicine",
       "molecular systems biology", "life science alliance"]) :
    generate_rpf_link journal doi w = (Except.ok "", []) := by
  simp only [List.mem_cons, List.not_mem_nil, or_false, not_or] at h
  obtain ⟨h1, h2, h3, h4, h5⟩ := h
  simp [generate_rpf_link, h1, h2, h3, h4, h5]

/-- Witness for C6: the spec's own example input. -/
theorem generate_rpf_link_unrecognized_empty_witness :
    generate_rpf_link "Some Random Journal" "anything" wTrivial =
      (Except.ok "", []) := by
  exact generate_rpf_link_unrecognized_empty
    "Some Random Journal" "anything" wTrivial (by decide)

/-- C9: two journal names that agree after trimming and lowercasing make
`generate_rpf_link` behave identically on every DOI and every world. -/
theorem generate_rpf_link_normalized_congruence (j1 j2 doi : String) (w : World)
    (h : pyLower (pyStrip j1) = pyLower (pyStrip j2)) :
    generate_rpf_link j1 doi w = generate_rpf_link j2 doi w := by
  simp only [generate_rpf_link, h]

/-- Witness for C9: the spec's example pair of journal names. -/
theorem generate_rpf_link_normalized_congruence_witness :
    generate_rpf_link "  Molecular Systems Biology " "10.15252/msb.20198849" wTrivial =
      generate_rpf_link "molecular systems biology" "10.15252/msb.20198849" wTrivial := by
  exact generate_rpf_link_normalized_congruence
    "  Molecular Systems Biology " "molecular systems biology"
    "10.15252/msb.20198849" wTrivial (by decide)

theorem takeRun_of_all (p : Char → Bool) (l : List Char)
    (h : ∀ x ∈ l, p x = true) : takeRun p l = l := by
  have := takeRun_append p l [] h (by intro c t hct; simp at hct)
  simpa using this

theorem ejMatch_of_shape (c3 : Char) (digits s1 s2 : List Char) (nl : Bool)
    (hc3 : c3 ≠ '\n') (hd : ∀ c ∈ digits, Char.isDigit c = true)
    (hl4 : 4 ≤ digits.length) (hl9 : digits.length ≤ 9)
    (hs1ne : s1 ≠ []) (hs2ne : s2 ≠ [])
    (hc1 : ∀ c ∈ s1, inClass c = true) (hc2 : ∀ c ∈ s2, inClass c = true) :
    ejMatch ('1' :: '0' :: c3 ::
      (digits ++ '/' :: (s1 ++ '.' :: (s2 ++ (if nl then ['\n'] else []))))) =
      some (s1, s2, nl) := by
  have hnd : ∀ c t,
      ('/' :: (s1 ++ '.' :: (s2 ++ (if nl then ['\n'] else []))) = c :: t) →
      Char.isDigit c = false := by
    intro c t hct
    injection hct with hc _
    rw [← hc]
    decide
  have hds := takeRun_append Char.isDigit digits _ hd hnd
  have hdr := dropRun_append Char.isDigit digits _ hd hnd
  have hncl1 : ∀ c t,
      ('.' :: (s2 ++ (if nl then ['\n'] else [])) = c :: t) → inClass c = false := by
    intro c t hct
    injection hct with hc _
    rw [← hc]
    decide
  have hs1take := takeRun_append inClass s1 _ hc1 hncl1
  have hs1drop := dropRun_append inClass s1 _ hc1 hncl1
  have hncl2 : ∀ c t, ((if nl then ['\n'] else []) = c :: t) → inClass c = false := by
    intro c t hct
    cases nl
    · simp at hct
    · simp at hct
      rw [← hct.1]
      decide
  have hs2take := takeRun_append inClass s2 _ hc2 hncl2
  have hs2drop := dropRun_append inClass s2 _ hc2 hncl2
  simp only [ejMatch, hds, hdr, hs1take, hs1drop, hs2take, hs2drop]
  cases nl <;> simp [hc3, hl4, hl9, hs1ne, hs2ne]

theorem ejMatch_sound (cs s1 s2 : List Char) (nl : Bool)
    (h : ejMatch cs = some (s1, s2, nl)) : codeAnchoredMatch cs := by
  rcases cs with _ | ⟨c1, _ | ⟨c2, _ | ⟨c3, rest⟩⟩⟩
  · simp [ejMatch] at h
  · simp [ejMatch] at h
  · simp [ejMatch] at h
  · simp only [ejMatch] at h
    split at h
    swap
    · exact Option.noConfusion h
    rename_i h1
    obtain ⟨h11, h12, h13⟩ := h1
    subst h11
    subst h12
    split at h
    swap
    · exact Option.noConfusion h
    rename_i h2
    split at h
    swap
    · exact Option.noConfusion h
    rename_i c4 rest3 hdrop
    split at h
    swap
    · exact Option.noConfusion h
    rename_i h4
    subst h4
    split at h
    swap
    · exact Option.noConfusion h
    rename_i h5
    split at h
    swap
    · exact Option.noConfusion h
    rename_i c5 rest5 hdrop4
    split at h
    swap
    · exact Option.noConfusion h
    rename_i h6
    subst h6
    split at h
    swap
    · exact Option.noConfusion h
    rename_i h7
    have hrest := takeRun_append_dropRun Char.isDigit rest
    rw [hdrop] at hrest
    have hrest3 := takeRun_append_dropRun inClass rest3
    rw [hdrop4] at hrest3
    have hrest5 := takeRun_append_dropRun inClass rest5
    split at h
    · rename_i h8
      simp only [Option.some.injEq, Prod.mk.injEq] at h
      obtain ⟨ha, hb, -⟩ := h
      refine ⟨c3, takeRun Char.isDigit rest, s1, s2, dropRun inClass rest5,
        ?_, h13, ?_, h2.1, h2.2, ?_, ?_, ?_, ?_, Or.inl h8⟩
      · have e5 : rest5 = s2 ++ dropRun inClass rest5 := by
          rw [← hb]
          exact hrest5.symm
        have e3 : rest3 = s1 ++ '.' :: (s2 ++ dropRun inClass rest5) := by
          rw [← ha, ← e5]
          exact hrest3.symm
        have e : rest = takeRun Char.isDigit rest ++
            '/' :: (s1 ++ '.' :: (s2 ++ dropRun inClass rest5)) := by
          rw [← e3]
          exact hrest.symm
        conv_lhs => rw [e]
      · exact takeRun_all Char.isDigit rest
      · rw [← ha]; exact h5
      · rw [← hb]; exact h7
      · rw [← ha]; exact takeRun_all inClass rest3
      · rw [← hb]; exact takeRun_all inClass rest5
    split at h
    swap
    · exact Option.noConfusion h
    rename_i h8 h9
    simp only [Option.some.injEq, Prod.mk.injEq] at h
    obtain ⟨ha, hb, -⟩ := h
    refine ⟨c3, takeRun Char.isDigit rest, s1, s2, dropRun inClass rest5,
      ?_, h13, ?_, h2.1, h2.2, ?_, ?_, ?_, ?_, Or.inr h9⟩
    · have e5 : rest5 = s2 ++ dropRun inClass rest5 := by
        rw [← hb]
        exact hrest5.symm
      have e3 : rest3 = s1 ++ '.' :: (s2 ++ dropRun inClass rest5) := by
        rw [← ha, ← e5]
        exact hrest3.symm
      have e : rest = takeRun Char.isDigit rest ++
          '/' :: (s1 ++ '.' :: (s2 ++ dropRun inClass rest5)) := by
        rw [← e3]
        exact hrest.symm
      conv_lhs => rw [e]
    · exact takeRun_all Char.isDigit rest
    · rw [← ha]; exact h5
    · rw [← hb]; exact h7
    · rw [← ha]; exact takeRun_all inClass rest3
    · rw [← hb]; exact takeRun_all inClass rest5

/-- C4: for a DOI of the form `10.<4-9 digits>/<seg1>.<seg2>` with both
segments nonempty and drawn from `[-_;()/:a-zA-Z0-9]`, the EjErEmmMsb
generator produces the template URL with `<seg1><seg2>` concatenated in the
`file=` component, with no intervening dot. -/
theorem ej_generate_matching (doi : String) (digits s1 s2 : List Char)
    (hdoi : doi.data = '1' :: '0' :: '.' :: (digits ++ '/' :: (s1 ++ '.' :: s2)))
    (hd : ∀ c ∈ digits, Char.isDigit c = true)
    (hl4 : 4 ≤ digits.length) (hl9 : digits.length ≤ 9)
    (hs1ne : s1 ≠ []) (hs2ne : s2 ≠ [])
    (hc1 : ∀ c ∈ s1, inClass c = true) (hc2 : ∀ c ∈ s2, inClass c = true) :
    RPFLinkEjErEmmMsb_generate_link doi =
      "https://www.embopress.org/action/downloadSupplement?doi=" ++ doi ++
        "&file=" ++ String.mk (s1 ++ s2) ++ ".reviewer_comments.pdf" := by
  have hm : ejMatch doi.data = some (s1, s2, false) := by
    rw [hdoi]
    have h := ejMatch_of_shape '.' digits s1 s2 false (by decide) hd hl4 hl9
      hs1ne hs2ne hc1 hc2
    simpa using h
  unfold RPFLinkEjErEmmMsb_generate_link ej_suffix_without_dot
  rw [hm]
  simp

/-- Witness for C4: the spec's own example DOI. -/
theorem ej_generate_matching_witness :
    RPFLinkEjErEmmMsb_generate_link "10.15252/embr.201847097" =
      "https://www.embopress.org/action/downloadSupplement?doi=10.15252/embr.201847097&file=embr201847097.reviewer_comments.pdf" := by
  have h := ej_generate_matching "10.15252/embr.201847097"
    ['1', '5', '2', '5', '2'] ['e', 'm', 'b', 'r']
    ['2', '0', '1', '8', '4', '7', '0', '9', '7']
    (by decide) (by decide) (by decide) (by decide)
    (by decide) (by decide) (by decide) (by decide)
  rw [h]
  rfl

/-- C5 counterexample: `10x1234/a.b` does not match the spec's two-segment
pattern (its third character is `x`, not a literal dot), yet the code's
regex — whose `.` after `10` is unescaped — matches it and collapses it to
`ab`, so the generator does not embed the DOI verbatim in the `file=`
component. -/
theorem ej_generate_unescaped_dot_not_passthrough :
    ¬ specTwoSegPattern "10x1234/a.b" ∧
    RPFLinkEjErEmmMsb_generate_link "10x1234/a.b" ≠
      "https://www.embopress.org/action/downloadSupplement?doi=10x1234/a.b&file=10x1234/a.b.reviewer_comments.pdf" := by
  constructor
  · rintro ⟨digits, s1, s2, heq, -⟩
    have h2 : ('x' : Char) = '.' := congrArg (fun l => l.getD 2 ' ') heq
    exact absurd h2 (by decide)
  · decide

/-- C5 amended: for every DOI string not matched by the code's actual
anchored regex — whose third character may be any character except
newline, and where `$` may leave a single trailing newline unmatched —
the generator embeds the DOI verbatim in the `file=` component. -/
theorem ej_generate_nonmatching_passthrough (doi : String)
    (h : ¬ codeAnchoredMatch doi.data) :
    RPFLinkEjErEmmMsb_generate_link doi =
      "https://www.embopress.org/action/downloadSupplement?doi=" ++ doi ++
        "&file=" ++ doi ++ ".reviewer_comments.pdf" := by
  have hm : ejMatch doi.data = none := by
    cases he : ejMatch doi.data with
    | none => rfl
    | some v =>
      obtain ⟨s1, s2, nl⟩ := v
      exact absurd (ejMatch_sound _ _ _ _ he) h
  unfold RPFLinkEjErEmmMsb_generate_link ej_suffix_without_dot
  rw [hm]

/-- Witness for the amended C5 at a DOI that matches nowhere. -/
theorem ej_generate_nonmatching_passthrough_witness :
    RPFLinkEjErEmmMsb_generate_link "xyz" =
      "https://www.embopress.org/action/downloadSupplement?doi=xyz&file=xyz.reviewer_comments.pdf" := by
  have h := ej_generate_nonmatching_passthrough "xyz" (by
    rintro ⟨c, digits, s1, s2, tail, heq, -⟩
    have h2 : ('x' : Char) = '1' := congrArg (fun l => l.getD 0 ' ') heq
    exact absurd h2 (by decide))
  rw [h]
  rfl

/-- The head of `rest` (if any) is not a digit: greediness of the final
`\d+` means the regex match extends to exactly this boundary. -/
def headNonDigit : List Char → Prop
  | [] => True
  | c :: _ => Char.isDigit c = false

theorem headNonDigit_elim (rest : List Char) (h : headNonDigit rest) :
    ∀ c t, rest = c :: t → Char.isDigit c = false := by
  intro c t hct
  subst hct
  exact h

theorem lsaMatchAt_of_shape (d1 d2 d3 rest : List Char)
    (h1 : d1 ≠ []) (h2 : d2 ≠ []) (h3 : d3 ≠ [])
    (hd1 : ∀ c ∈ d1, Char.isDigit c = true)
    (hd2 : ∀ c ∈ d2, Char.isDigit c = true)
    (hd3 : ∀ c ∈ d3, Char.isDigit c = true) (hrest : headNonDigit rest) :
    lsaMatchAt (d1 ++ '/' :: (d2 ++ '/' :: 'e' :: (d3 ++ rest))) =
      some (d1 ++ '/' :: (d2 ++ '/' :: 'e' :: d3)) := by
  have hnd1 : ∀ c t,
      ('/' :: (d2 ++ '/' :: 'e' :: (d3 ++ rest)) = c :: t) →
      Char.isDigit c = false := by
    intro c t hct
    injection hct with hc _
    rw [← hc]
    decide
  have hnd2 : ∀ c t,
      ('/' :: 'e' :: (d3 ++ rest) = c :: t) → Char.isDigit c = false := by
    intro c t hct
    injection hct with hc _
    rw [← hc]
    decide
  have hnd3 := headNonDigit_elim rest hrest
  have t1 := takeRun_append Char.isDigit d1 _ hd1 hnd1
  have r1 := dropRun_append Char.isDigit d1 _ hd1 hnd1
  have t2 := takeRun_append Char.isDigit d2 _ hd2 hnd2
  have r2 := dropRun_append Char.isDigit d2 _ hd2 hnd2
  have t3 := takeRun_append Char.isDigit d3 rest hd3 hnd3
  simp only [lsaMatchAt, t1, r1, t2, r2, t3]
  simp [h1, h2, h3]

theorem lsaMatchAt_sound (cs m : List Char) (h : lsaMatchAt cs = some m) :
    viEShapeAt cs := by
  simp only [lsaMatchAt] at h
  split at h
  · exact Option.noConfusion h
  rename_i h1
  split at h
  swap
  · exact Option.noConfusion h
  rename_i c1 r2 hr1
  split at h
  swap
  · exact Option.noConfusion h
  rename_i hc1
  subst hc1
  split at h
  · exact Option.noConfusion h
  rename_i h2
  split at h
  case h_2 => exact Option.noConfusion h
  rename_i c2 c3 r4 hr3
  split at h
  swap
  · exact Option.noConfusion h
  rename_i hc23
  obtain ⟨hc2, hc3⟩ := hc23
  subst hc2
  subst hc3
  split at h
  · exact Option.noConfusion h
  rename_i h3
  have e1 := takeRun_append_dropRun Char.isDigit cs
  rw [hr1] at e1
  have e2 := takeRun_append_dropRun Char.isDigit r2
  rw [hr3] at e2
  have e3 := takeRun_append_dropRun Char.isDigit r4
  refine ⟨takeRun Char.isDigit cs, takeRun Char.isDigit r2,
    takeRun Char.isDigit r4, dropRun Char.isDigit r4, ?_, h1, h2, h3,
    takeRun_all Char.isDigit cs, takeRun_all Char.isDigit r2,
    takeRun_all Char.isDigit r4⟩
  have e2x : r2 = takeRun Char.isDigit r2 ++
      '/' :: 'e' :: (takeRun Char.isDigit r4 ++ dropRun Char.isDigit r4) := by
    rw [e3]
    exact e2.symm
  conv_lhs => rw [← e1, e2x]

theorem lsaSearch_none_of_noShape (cs : List Char)
    (h : ∀ q r, cs = q ++ r → ¬ viEShapeAt r) :
    lsaSearch cs = none := by
  induction cs with
  | nil => rfl
  | cons a rest ih =>
    simp only [lsaSearch]
    have hnone : lsaMatchAt (a :: rest) = none := by
      cases hma : lsaMatchAt (a :: rest) with
      | none => rfl
      | some mm => exact absurd (lsaMatchAt_sound _ _ hma) (h [] (a :: rest) rfl)
    rw [hnone]
    exact ih (fun q r hq => h (a :: q) r (by rw [hq]; rfl))

theorem lsaSearch_eq_of_first (p suffix m : List Char)
    (hfirst : ∀ q r, p = q ++ r → r ≠ [] → ¬ viEShapeAt (r ++ suffix))
    (hm : lsaMatchAt suffix = some m) :
    lsaSearch (p ++ suffix) = some m := by
  induction p with
  | nil =>
    simp only [List.nil_append]
    cases suffix with
    | nil => simp [lsaMatchAt, takeRun] at hm
    | cons c rest =>
      simp only [lsaSearch]
      rw [hm]
  | cons a p2 ih =>
    simp only [List.cons_append, lsaSearch, List.append_eq]
    have hnone : lsaMatchAt (a :: (p2 ++ suffix)) = none := by
      cases hma : lsaMatchAt (a :: (p2 ++ suffix)) with
      | none => rfl
      | some mm =>
        have hs := lsaMatchAt_sound _ _ hma
        exact absurd hs (hfirst [] (a :: p2) rfl (by simp))
    rw [hnone]
    exact ih (fun q r hq hr => hfirst (a :: q) r (by rw [hq]; rfl) hr)

/-- No suffix of an all-non-digit string starts a `\d+/\d+/e\d+` match. -/
theorem noShape_of_noDigit (l : List Char)
    (hnd : ∀ c ∈ l, Char.isDigit c = false) :
    ∀ q r, l = q ++ r → ¬ viEShapeAt r := by
  intro q r hqr hshape
  obtain ⟨d1, d2, d3, rest, heq, h1, -, -, hd1, -, -⟩ := hshape
  cases d1 with
  | nil => exact h1 rfl
  | cons c d1x =>
    have hc : c ∈ l := by
      rw [hqr, heq]
      simp
    have hfalse := hnd c hc
    have htrue := hd1 c (by simp)
    rw [hfalse] at htrue
    exact Bool.noConfusion htrue

/-- If the prefix before a match contains no digit at all, the match is the
first occurrence: no strictly earlier start position begins a match. -/
theorem firstOcc_of_noDigit (p suffix : List Char)
    (hnd : ∀ c ∈ p, Char.isDigit c = false) :
    ∀ q r, p = q ++ r → r ≠ [] → ¬ viEShapeAt (r ++ suffix) := by
  intro q r hqr hrne hshape
  obtain ⟨d1, d2, d3, rest, heq, h1, -, -, hd1, -, -⟩ := hshape
  cases r with
  | nil => exact hrne rfl
  | cons c r2 =>
    have hc : c ∈ p := by
      rw [hqr]
      simp
    cases d1 with
    | nil => exact h1 rfl
    | cons e d1x =>
      have hce : c = e := by
        have := congrArg (fun l => l.getD 0 ' ') heq
        simpa using this
      have htrue := hd1 e (by simp)
      rw [← hce, hnd c hc] at htrue
      exact Bool.noConfusion htrue

/-- C8: when the resolved landing-page URL decomposes as a digit-free-start
prefix `p` followed by the first (leftmost, greedily extended) occurrence
of `<digits>/<digits>/e<digits>`, the LSA generator returns exactly the
fixed template around that occurrence. -/
theorem lsa_generate_first_occurrence (doi : String) (w : World)
    (p d1 d2 d3 rest : List Char)
    (hres : (World.resolve w doi).data =
      p ++ (d1 ++ '/' :: (d2 ++ '/' :: 'e' :: (d3 ++ rest))))
    (h1 : d1 ≠ []) (h2 : d2 ≠ []) (h3 : d3 ≠ [])
    (hd1 : ∀ c ∈ d1, Char.isDigit c = true)
    (hd2 : ∀ c ∈ d2, Char.isDigit c = true)
    (hd3 : ∀ c ∈ d3, Char.isDigit c = true)
    (hrest : headNonDigit rest)
    (hfirst : ∀ q r, p = q ++ r → r ≠ [] →
      ¬ viEShapeAt (r ++ (d1 ++ '/' :: (d2 ++ '/' :: 'e' :: (d3 ++ rest))))) :
    RPFLinkLSA_generate_link doi w =
      (Except.ok ("https://www.life-science-alliance.org/content/lsa/" ++
        String.mk (d1 ++ '/' :: (d2 ++ '/' :: 'e' :: d3)) ++
        ".reviewer-comments.pdf"), [Effect.resolveDoi doi]) := by
  have hm := lsaMatchAt_of_shape d1 d2 d3 rest h1 h2 h3 hd1 hd2 hd3 hrest
  have hsearch := lsaSearch_eq_of_first p _ _ hfirst hm
  simp only [RPFLinkLSA_generate_link]
  rw [hres, hsearch]

/-- A world resolving every DOI to the spec's example LSA landing page. -/
def wLSA : World :=
  { resolve := fun _ => "https://www.life-science-alliance.org/content/2/4/e201900445",
    proxy := fun _ => { status_code := 200, json := none } }

/-- Witness for C8 at the spec's LSA example. -/
theorem lsa_generate_first_occurrence_witness :
    RPFLinkLSA_generate_link "10.26508/lsa.201900445" wLSA =
      (Except.ok "https://www.life-science-alliance.org/content/lsa/2/4/e201900445.reviewer-comments.pdf",
       [Effect.resolveDoi "10.26508/lsa.201900445"]) := by
  have h := lsa_generate_first_occurrence "10.26508/lsa.201900445" wLSA
    "https://www.life-science-alliance.org/content/".data
    ['2'] ['4'] ['2', '0', '1', '9', '0', '0', '4', '4', '5'] []
    (by decide) (by decide) (by decide) (by decide)
    (by decide) (by decide) (by decide) True.intro
    (firstOcc_of_noDigit "https://www.life-science-alliance.org/content/".data
      (['2'] ++ '/' :: (['4'] ++ '/' :: 'e' ::
        (['2', '0', '1', '9', '0', '0', '4', '4', '5'] ++ [])))
      (by decide))
  rw [h]
  rfl

/-- C7 counterexample: on a recognized journal the system surfaces
`TypeError` from strategy construction — an exceptional condition that is
neither the LSA pattern-match failure (`AttributeError`) nor the uniform
empty-string result — so the pattern-match failure is not the only failure
kind that surfaces. -/
theorem generate_rpf_link_other_exception_surfaces :
    (generate_rpf_link "EMBO reports" "10.1/x.y" wTrivial).1 =
      Except.error PyError.typeError ∧
    Except.error PyError.typeError ≠ (Except.ok "" : Except PyError String) ∧
    PyError.typeError ≠ PyError.attributeError := by
  refine ⟨rfl, ?_, by decide⟩
  intro h
  exact Except.noConfusion h

/-- C7 amended: when the resolved URL contains no `\d+/\d+/e\d+` match,
LSA generation raises `AttributeError` to its caller instead of returning
a URL or the empty string; but this is not the only exceptional condition
the system can surface — the verifier raises `KeyError` on a proxy body
without a `solution` field, and strategy construction raises `TypeError`
for every recognized journal. -/
theorem lsa_nomatch_raises_but_not_only_exception :
    (∀ doi w, (∀ q r, (World.resolve w doi).data = q ++ r → ¬ viEShapeAt r) →
      RPFLinkLSA_generate_link doi w =
        (Except.error PyError.attributeError, [Effect.resolveDoi doi])) ∧
    (∀ d link resp body, link ≠ "" → resp.status_code = 200 →
      resp.json = some body → body.solution = none →
      (RPFLink_test d link resp).1 = Except.error PyError.keyError) ∧
    (∀ journal doi w, pyLower (pyStrip journal) ∈
        ["the embo journal", "embo reports", "embo molecular medicine",
         "molecular systems biology", "life science alliance"] →
      (generate_rpf_link journal doi w).1 = Except.error PyError.typeError) := by
  refine ⟨?_, ?_, ?_⟩
  · intro doi w h
    have hs := lsaSearch_none_of_noShape (World.resolve w doi).data h
    simp only [RPFLinkLSA_generate_link]
    rw [hs]
  · intro d link resp body hlink hs hj hsol
    simp [RPFLink_test, hlink, hs, hj, hsol]
  · intro journal doi w h
    simp only [List.mem_cons, List.not_mem_nil, or_false] at h
    rcases h with h | h | h | h | h <;>
      simp [generate_rpf_link, h, RPFLinkAbstract_init]

/-- A world that resolves every DOI to a digit-free landing page. -/
def wNoMatch : World :=
  { resolve := fun _ => "https://example.org/missing",
    proxy := fun _ => { status_code := 200, json := none } }

/-- Witness for the amended C7: a concrete no-match resolution raises
`AttributeError` after the single resolver call. -/
theorem lsa_nomatch_raises_but_not_only_exception_witness :
    RPFLinkLSA_generate_link "10.26508/lsa.000" wNoMatch =
      (Except.error PyError.attributeError,
       [Effect.resolveDoi "10.26508/lsa.000"]) := by
  exact lsa_nomatch_raises_but_not_only_exception.1 "10.26508/lsa.000" wNoMatch
    (noShape_of_noDigit "https://example.org/missing".data (by decide))
